import Mathlib

/-!
Shallow embedding of the listing-acquisition pipeline of the
Philswebsitebotbackend repository (src/bot.js, src/philsbot/services/chatService.js
ScraperService, src/philsbot/services/utils.js, and the parsers module
src/unnamed/part_001), together with theorems settling the frozen claims.

JavaScript conventions modelled explicitly:
* a JS number that may be NaN is `Option ℚ` (`none` = NaN);
* `Array.prototype.indexOf` / `String.prototype.indexOf` return `Int` (-1 when absent);
* exceptions are `Except ε`;
* the network is an oracle: for one request, `Nat → Except ε α` gives the
  outcome of each successive attempt; for a paginated crawl, `Nat → Except ε _`
  gives the outcome of the page-`n` GET.
-/

namespace PhilsBot

/-- JS whitespace class `\s` (the members relevant to this codebase). -/
def isJsWs (c : Char) : Bool :=
  c = ' ' || c = '\t' || c = '\n' || c = '\r' || c = '\x0b' || c = '\x0c'

/-- `String.prototype.trim`: strip leading and trailing whitespace. -/
def jsTrim (s : String) : String :=
  String.mk (((s.toList.dropWhile isJsWs).reverse.dropWhile isJsWs).reverse)

/-- Collapse every maximal run of whitespace characters into a single space
(the `replace(/\s+/g, " ")` step of `cleanText`); the flag records whether the
previous character belonged to a whitespace run already emitted as `' '`. -/
def collapseWsAux (prevWs : Bool) : List Char → List Char
  | [] => []
  | c :: cs =>
    if isJsWs c then
      if prevWs then collapseWsAux true cs else ' ' :: collapseWsAux true cs
    else c :: collapseWsAux false cs

/-- `cleanText` (bot.js line 38 / utils.js): collapse whitespace runs, then trim. -/
def cleanText (s : String) : String :=
  jsTrim (String.mk (collapseWsAux false s.toList))

/-- Is `n` a prefix of `h`? (char-list version of `String.prototype.startsWith`). -/
def isPrefixChars : List Char → List Char → Bool
  | [], _ => true
  | _ :: _, [] => false
  | a :: as, b :: bs => a = b && isPrefixChars as bs

/-- First index at which `n` occurs inside `h`, if any. -/
def firstOccur (h n : List Char) : Option Nat :=
  if isPrefixChars n h then some 0
  else
    match h with
    | [] => none
    | _ :: t => (firstOccur t n).map (· + 1)

/-- `String.prototype.indexOf`: `Int`-valued, `-1` when the substring is absent. -/
def jsStrIndexOf (s sub : String) : Int :=
  match firstOccur s.toList sub.toList with
  | some i => (i : Int)
  | none => -1

/-- Does `h` contain `n` as a contiguous substring (`String.prototype.includes`)? -/
def containsSub (h n : String) : Bool :=
  (firstOccur h.toList n.toList).isSome

/-- `String.prototype.toLowerCase` (ASCII, which is all the code compares). -/
def jsToLower (s : String) : String :=
  String.mk (s.toList.map Char.toLower)

/-- `s.substring(0, e)` for an `Int` end index: JS clamps a negative end to 0. -/
def jsSubstring0 (s : String) (e : Int) : String :=
  String.mk (s.toList.take e.toNat)

/-- Split a character list on a separator character, keeping empty segments,
like `String.prototype.split(" ")`: `"a  b"` gives `["a", "", "b"]` and `""`
gives `[""]`. -/
def splitCharsOn (sep : Char) : List Char → List (List Char)
  | [] => [[]]
  | c :: cs =>
    if c = sep then [] :: splitCharsOn sep cs
    else
      match splitCharsOn sep cs with
      | [] => [[c]]
      | t :: ts => (c :: t) :: ts

/-- `String.prototype.split` with a one-character separator. -/
def jsSplit (s : String) (sep : Char) : List String :=
  (splitCharsOn sep s.toList).map String.mk

/-- Character-list body of `Array.prototype.join(" ")`. -/
def joinWithSpace : List String → List Char
  | [] => []
  | [s] => s.toList
  | s :: rest => s.toList ++ ' ' :: joinWithSpace rest

/-- `Array.prototype.join(" ")` on a string array. -/
def jsJoinSpace (ls : List String) : String :=
  String.mk (joinWithSpace ls)

def jsArrIndexOfAux (x : String) (i : Nat) : List String → Int
  | [] => -1
  | a :: t => if a = x then (i : Int) else jsArrIndexOfAux x (i + 1) t

/-- `Array.prototype.indexOf` on a string array: `Int`-valued, `-1` when absent. -/
def jsArrIndexOf (l : List String) (x : String) : Int :=
  jsArrIndexOfAux x 0 l

end PhilsBot

namespace PhilsBot

/-! ### AddressParser (`parseAddress`, bot.js lines 98–115 / parsers.js lines 3–16) -/

/-- The anchored token test `/^[A-Z]\d[A-Z]\s?\d[A-Z]\d$/` of `parseAddress`:
uppercase letter, digit, uppercase letter, optional whitespace, digit,
uppercase letter, digit, matching the whole token. -/
def postalTokenTest (s : String) : Bool :=
  let isU := fun c : Char => 'A' ≤ c && c ≤ 'Z'
  let isD := fun c : Char => '0' ≤ c && c ≤ '9'
  match s.toList with
  | [a, b, c, d, e, f] => isU a && isD b && isU c && isD d && isU e && isD f
  | [a, b, c, w, d, e, f] =>
      isU a && isD b && isU c && isJsWs w && isD d && isU e && isD f
  | _ => false

/-- The `Address` record produced by `parseAddress`.  The first three fields are
`parts[0]`, `parts[1]`, `parts[2]`, which are `undefined` (here `none`) when the
split has fewer than three tokens. -/
structure Address where
  streetNumber : Option String
  streetName : Option String
  streetType : Option String
  city : String
  postalCode : String
  neighborhood : String
  deriving DecidableEq, Repr

/-- `parseAddress` (bot.js lines 98–115, identical in parsers.js lines 3–16):
split on single spaces, take the first token passing the postal regex (else `""`),
the first token equal to one of Burnaby/Vancouver/Richmond (else `""`), and the
join of `parts.slice(parts.indexOf(postalCode) + 1)`. -/
def parseAddress (addressString : String) : Address :=
  let parts := jsSplit addressString ' '
  let postalCode := (parts.find? (fun part => postalTokenTest part)).getD ""
  { streetNumber := parts[0]?
    streetName := parts[1]?
    streetType := parts[2]?
    city := (parts.find? (fun part =>
        part = "Burnaby" || part = "Vancouver" || part = "Richmond")).getD ""
    postalCode := postalCode
    neighborhood :=
      jsJoinSpace (parts.drop (jsArrIndexOf parts postalCode + 1).toNat) }

/-! ### Price parsing (bot.js lines 78–87 `extractListingInfo`, utils.js `parsePrice`) -/

def isDigitCh (c : Char) : Bool := '0' ≤ c && c ≤ '9'

def digitsVal (l : List Char) : Nat :=
  l.foldl (fun acc c => acc * 10 + (c.toNat - '0'.toNat)) 0

/-- Lexing phase of `parseFloat`: optional leading whitespace and sign, integer
digits, optional fraction digits.  Produces `none` (JS `NaN`) when no digit is
readable at the front, otherwise the sign flag and the two digit runs. -/
def jsParseFloatParts (s : String) : Option (Bool × List Char × List Char) :=
  let l := s.toList.dropWhile isJsWs
  let neg := l.head? = some '-'
  let l := if l.head? = some '-' || l.head? = some '+' then l.tail else l
  let intDigits := l.takeWhile isDigitCh
  let rest := l.dropWhile isDigitCh
  let fracDigits := match rest with
    | '.' :: t => t.takeWhile isDigitCh
    | _ => []
  if intDigits.isEmpty && fracDigits.isEmpty then none
  else some (neg, intDigits, fracDigits)

/-- Numeric value of the lexed sign and digit runs. -/
def ratOfParts : Bool × List Char × List Char → ℚ :=
  fun p => (if p.1 then (-1 : ℚ) else 1) *
    ((digitsVal p.2.1 : ℚ) + (digitsVal p.2.2 : ℚ) / ((10 : ℚ) ^ p.2.2.length))

/-- `parseFloat`, modelled for the finite-decimal strings this codebase feeds it
(no exponent part occurs in the scraped price/measure strings).  `none` is JS
`NaN`. -/
def jsParseFloat (s : String) : Option ℚ :=
  (jsParseFloatParts s).map ratOfParts

/-- `replace(/[$,]/g, "")`. -/
def stripDollarComma (s : String) : String :=
  String.mk (s.toList.filter (fun c => !(c = '$' || c = ',')))

/-- JS `x || 0` applied to a number that may be NaN: NaN and 0 are falsy and
give `0`; every other number passes through. -/
def jsOrZero (x : Option ℚ) : Option ℚ :=
  match x with
  | none => some 0
  | some v => if v = 0 then some 0 else some v

/-- `parsePrice` (utils.js lines 5–7): `parseFloat(priceStr.replace(/[$,]/g, '')) || 0`. -/
def parsePrice (priceStr : String) : Option ℚ :=
  jsOrZero (jsParseFloat (stripDollarComma priceStr))

/-- The `price` field of a listing summary: a JS number (`none` = NaN) plus the
verbatim formatted string. -/
structure PriceInfo where
  amount : Option ℚ
  formatted : String
  deriving DecidableEq, Repr

/-- The price object built by bot.js `extractListingInfo` (lines 78–87) from the
trimmed text of the price container node:
`amount = parseFloat(text.trim().replace(/[$,]/g, ""))`, `formatted = text.trim()`. -/
def extractPriceBot (rawText : String) : PriceInfo :=
  { amount := jsParseFloat (stripDollarComma (jsTrim rawText))
    formatted := jsTrim rawText }

/-- The price object built by parsers.js `extractListingInfo` (part_001 lines
53–56), which routes the amount through `parsePrice`. -/
def extractPriceParsers (rawText : String) : PriceInfo :=
  { amount := parsePrice (jsTrim rawText)
    formatted := jsTrim rawText }

/-! ### DetailTextParser: `extractDescription` (bot.js lines 167–172 /
part_001 lines 82–87) -/

/-- `extractDescription`: `descEnd = text.indexOf('Documents & Links:')`;
`text.substring(0, descEnd > 0 ? descEnd : text.indexOf('General Info:')).trim()`. -/
def extractDescription (text : String) : String :=
  let descEnd := jsStrIndexOf text "Documents & Links:"
  jsTrim (jsSubstring0 text
    (if descEnd > 0 then descEnd else jsStrIndexOf text "General Info:"))

/-! ### Listing data model (bot.js `extractListingInfo`, lines 64–95) -/

/-- Compact details parsed from the summary blob (`extractDetailsFromSummary`):
every field is omitted (`none`) when its pattern does not match. -/
structure SummaryDetails where
  mlsNumber : Option String := none
  bedrooms : Option Nat := none
  bathrooms : Option Nat := none
  floorAreaSqft : Option Nat := none
  floorAreaSqm : Option Nat := none
  deriving DecidableEq, Repr

/-- One listing-summary record as produced by `extractListingInfo`:
`data-listing-id` / `data-share-url` attributes may be absent (`none`). -/
structure ListingSummary where
  listingId : Option String := none
  shareUrl : Option String := none
  price : PriceInfo := ⟨none, ""⟩
  status : String := ""
  location : Address := parseAddress ""
  imageUrl : Option String := none
  details : SummaryDetails := {}
  deriving DecidableEq, Repr

/-! ### Fetcher (`axiosWithRetry`, bot.js lines 41–62 / chatService.js lines 203–219)

One request is an oracle `net : Nat → Except ε α`: `net i` is the outcome of
attempt `i` (0-based).  The embedding returns the function's outcome together
with the number of attempts performed and the list of waits inserted between
attempts.  JS quirk kept: when `retries = 0` the loop body never runs and the
function returns `undefined`, modelled as `Except.ok none`; a propagated
exception is `Except.error e`; a returned response is `Except.ok (some v)`. -/

def axiosRetryAux {ε α : Type} (net : Nat → Except ε α) (delayMs : Nat) :
    Nat → Nat → Except ε (Option α) × Nat × List Nat
  | 0, _ => (Except.ok none, 0, [])
  | remaining + 1, i =>
    match net i with
    | Except.ok v => (Except.ok (some v), 1, [])
    | Except.error e =>
      if remaining = 0 then (Except.error e, 1, [])
      else
        let r := axiosRetryAux net delayMs remaining (i + 1)
        (r.1, r.2.1 + 1, delayMs :: r.2.2)

/-- `axiosWithRetry(url, retries = 3, delay = 1000, ...)`: loop `i = 0 .. retries-1`;
a successful attempt returns at once; a failed attempt at `i = retries - 1`
rethrows its error; otherwise the code waits `delay` ms and retries.  The loop
is embedded counting the remaining attempts down (`remaining = retries - i`),
so the final-attempt test `i === retries - 1` is `remaining = 0` after the
decrement. -/
def axiosWithRetry {ε α : Type} (net : Nat → Except ε α)
    (retries : Nat := 3) (delayMs : Nat := 1000) :
    Except ε (Option α) × Nat × List Nat :=
  axiosRetryAux net delayMs retries 0

/-! ### PaginationCrawler (`getLinksFromPage` bot.js lines 251–280,
`scrapeAllListingsWithDetails` crawl loop bot.js lines 299–339) -/

/-- Case-insensitive status test of `getLinksFromPage` (bot.js lines 267–273). -/
def statusInactive (status : String) : Bool :=
  let l := jsToLower status
  containsSub l "not active" || containsSub l "inactive" ||
    containsSub l "sold" || containsSub l "pending"

/-- Result record `{ listings, foundInactive }` of `getLinksFromPage`. -/
structure LinksResult where
  listings : List ListingSummary
  foundInactive : Bool
  deriving DecidableEq, Repr

/-- `getLinksFromPage` given the outcome of its single page GET (already parsed
to the page's listing records; the DOM traversal itself is not modelled):
a thrown fetch/parse error is caught and becomes `{ listings: [], foundInactive: false }`;
an empty page returns `{ [], true }`; otherwise `foundInactive` is the
`some`-test over the statuses. -/
def getLinksFromPage {ε : Type} (fetched : Except ε (List ListingSummary)) :
    LinksResult :=
  match fetched with
  | Except.error _ => { listings := [], foundInactive := false }
  | Except.ok listings =>
    if listings.isEmpty then { listings := [], foundInactive := true }
    else { listings := listings,
           foundInactive := listings.any (fun l => statusInactive l.status) }

/-- `getLinksFromPage` seen at the network-attempt level: the page GET is a bare
`axios.get(url)` — it consumes exactly one attempt of its oracle, with no retry
loop around it.  Returns the result and the number of attempts performed. -/
def getLinksFromPageNet {ε : Type} (net : Nat → Except ε (List ListingSummary)) :
    LinksResult × Nat :=
  (getLinksFromPage (net 0), 1)

/-- The crawl loop of `scrapeAllListingsWithDetails` (bot.js lines 304–339),
from current page `c` with `foundInactive = false`: stops past `maxPages`;
stops keeping nothing of a page that yields no listings (error pages included);
stops keeping the whole page when it contains an inactive status; otherwise
keeps the page and continues with `c + 1`.  `pages c` is the outcome of the
page-`c` GET; the result pairs the accumulated listings with the number of
pages fetched. -/
def crawlFrom {ε : Type} (pages : Nat → Except ε (List ListingSummary))
    (maxPages c : Nat) : List ListingSummary × Nat :=
  if _h : c > maxPages then ([], 0)
  else
    let r := getLinksFromPage (pages c)
    if r.listings.isEmpty then ([], 1)
    else if r.foundInactive then (r.listings, 1)
    else
      let rest := crawlFrom pages maxPages (c + 1)
      (r.listings ++ rest.1, rest.2 + 1)
  termination_by maxPages + 1 - c

/-- The whole crawl phase: `currentPage` starts at 1. -/
def scrapeCrawl {ε : Type} (pages : Nat → Except ε (List ListingSummary))
    (maxPages : Nat := 20) : List ListingSummary × Nat :=
  crawlFrom pages maxPages 1

/-! ### DetailEnricher (bot.js lines 344–359 / chatService.js lines 309–326) -/

/-- An enriched record `{ ...listing, detailedInfo }`; `δ` is the parsed
detailed-info payload (its internal shape is irrelevant to the enrichment
phase, which only tests it against null). -/
structure EnrichedListing (δ : Type) where
  summary : ListingSummary
  detailedInfo : Option δ
  deriving DecidableEq, Repr

/-- The enrichment phase of `scrapeAllListingsWithDetails`: map every summary
to `{ ...listing, detailedInfo: scrapeListingDetails(listing.shareUrl) }`
(`detail` is the per-listing outcome of `scrapeListingDetails`, which returns
null on failure), then `filter((l) => l.detailedInfo !== null)`. -/
def enrichListings {δ : Type} (detail : ListingSummary → Option δ)
    (allListings : List ListingSummary) : List (EnrichedListing δ) :=
  ((allListings.map (fun l => ⟨l, detail l⟩)) :
      List (EnrichedListing δ)).filter (fun e => e.detailedInfo.isSome)

/-- `scrapeListingDetails` (bot.js lines 283–296) at the network-attempt level:
the detail page is fetched through `axiosWithRetry` (3 attempts, 1000 ms delay);
on success the cleaned text is parsed by the pure parser `parseDetailed`;
a final-attempt failure is caught and becomes null.  Returns the outcome and
the number of attempts performed. -/
def scrapeListingDetails {ε δ : Type} (parseDetailed : String → Option δ)
    (net : Nat → Except ε String) : Option δ × Nat :=
  match axiosWithRetry net 3 1000 with
  | (Except.error _, n, _) => (none, n)
  | (Except.ok none, n, _) => (none, n)
  | (Except.ok (some data), n, _) => (parseDetailed (cleanText data), n)

/-! ### Helper lemmas about the crawl loop -/

theorem crawlFrom_snd_le_aux {ε : Type} (pages : Nat → Except ε (List ListingSummary))
    (maxPages : Nat) :
    ∀ (fuel c : Nat), maxPages + 1 - c ≤ fuel →
      (crawlFrom pages maxPages c).2 ≤ maxPages + 1 - c := by
  intro fuel
  induction fuel with
  | zero =>
    intro c hc
    rw [crawlFrom]
    have h : c > maxPages := by omega
    simp [h]
  | succ n ih =>
    intro c hc
    rw [crawlFrom]
    by_cases h : c > maxPages
    · simp [h]
    · simp only [h, dite_false]
      by_cases hemp : (getLinksFromPage (pages c)).listings.isEmpty
      · simp [hemp]
        omega
      · by_cases hin : (getLinksFromPage (pages c)).foundInactive
        · simp [hemp, hin]
          omega
        · simp [hemp, hin]
          have hrec := ih (c + 1) (by omega)
          omega

/-! ## Claim theorems -/

/-- C2: for every base URL (abstracted into the page oracle), every `maxPages`
value and every sequence of origin responses, the crawl loop of
`scrapeAllListingsWithDetails` fetches at most `maxPages` pages; termination
for every oracle is witnessed by `scrapeCrawl` being a total function of its
arguments. -/
theorem crawl_fetches_le_maxPages {ε : Type}
    (pages : Nat → Except ε (List ListingSummary)) (maxPages : Nat) :
    (scrapeCrawl pages maxPages).2 ≤ maxPages := by
  have h := crawlFrom_snd_le_aux pages maxPages maxPages 1 (by omega)
  simpa [scrapeCrawl] using h

/-- C3: if the crawl, standing at page `c ≤ maxPages`, fetches a page whose
listings are non-empty and at least one listing status case-insensitively
contains one of "not active", "inactive", "sold", "pending", then the crawl
contributes exactly all listings of that page (the still-active ones included)
and fetches no further page: one fetch happens from `c` on.  Earlier pages'
listings sit in front of this result through the append of the continue
branch of `crawlFrom`. -/
theorem crawl_inactive_boundary {ε : Type}
    (pages : Nat → Except ε (List ListingSummary)) (maxPages c : Nat)
    (ls : List ListingSummary) (hc : c ≤ maxPages)
    (hpage : pages c = Except.ok ls) (hne : ls ≠ [])
    (hin : ∃ l ∈ ls, statusInactive l.status = true) :
    crawlFrom pages maxPages c = (ls, 1) := by
  rw [crawlFrom]
  have h : ¬ c > maxPages := by omega
  have hemp : ls.isEmpty = false := by
    cases ls with
    | nil => exact absurd rfl hne
    | cons a t => rfl
  have hany : ls.any (fun l => statusInactive l.status) = true := by
    obtain ⟨l, hl, hs⟩ := hin
    exact List.any_eq_true.mpr ⟨l, hl, hs⟩
  simp [h, getLinksFromPage, hpage, hemp, hany]

/-- Concrete boundary page used for the C3 witness: statuses
`["Active", "Sold", "Active"]`. -/
def listingActive : ListingSummary := { listingId := some "a", status := "Active" }

def listingSold : ListingSummary := { listingId := some "s", status := "Sold" }

def boundaryPageOracle : Nat → Except Unit (List ListingSummary) :=
  fun n => if n = 1 then Except.ok [listingActive, listingSold, listingActive]
           else Except.ok []

/-- Witness for C3: a crawl whose first page carries statuses
`["Active", "Sold", "Active"]` stops after that page and keeps all three
listings. -/
theorem crawl_inactive_boundary_witness :
    crawlFrom boundaryPageOracle 20 1 =
      ([listingActive, listingSold, listingActive], 1) :=
  crawl_inactive_boundary boundaryPageOracle 20 1
    [listingActive, listingSold, listingActive]
    (by decide) rfl (by decide)
    ⟨listingSold, by decide, by decide⟩

/-- C10: `getLinksFromPage` never throws.  First conjunct: a fetch/parse
exception is caught and returned as `{ listings: [], foundInactive: false }`.
Second conjunct: a failing page therefore stops the crawl through the
empty-listings branch, contributing nothing from that page onwards (the
accumulator built from prior pages is what the caller keeps).  Third conjunct:
the crawl result on a failing page is identical to the result on a genuinely
empty page, so the failure flows through the very same branch; in particular
the crawl loop's own catch branch is never exercised by `getLinksFromPage`,
which is a total function. -/
theorem getLinksFromPage_total_spec {ε : Type} :
    (∀ e : ε, getLinksFromPage (Except.error e : Except ε (List ListingSummary)) =
      { listings := [], foundInactive := false }) ∧
    (∀ (pages : Nat → Except ε (List ListingSummary)) (maxPages c : Nat) (e : ε),
      c ≤ maxPages → pages c = Except.error e →
      crawlFrom pages maxPages c = ([], 1)) ∧
    (∀ (pages : Nat → Except ε (List ListingSummary)) (maxPages c : Nat) (e : ε),
      pages c = Except.error e →
      crawlFrom pages maxPages c =
        crawlFrom (fun n => if n = c then Except.ok [] else pages n) maxPages c) := by
  refine ⟨fun e => rfl, ?_, ?_⟩
  · intro pages maxPages c e hc hpage
    rw [crawlFrom]
    have h : ¬ c > maxPages := by omega
    simp [h, getLinksFromPage, hpage]
  · intro pages maxPages c e hpage
    by_cases h : c > maxPages
    · conv_lhs => rw [crawlFrom]
      conv_rhs => rw [crawlFrom]
      simp [h]
    · conv_lhs => rw [crawlFrom]
      conv_rhs => rw [crawlFrom]
      simp [h, getLinksFromPage, hpage]

def failingPageOracle : Nat → Except Unit (List ListingSummary) :=
  fun _ => Except.error ()

/-- Witness for C10: a crawl whose page-1 GET throws stops at once with an
empty contribution and a single fetch. -/
theorem getLinksFromPage_total_spec_witness :
    crawlFrom failingPageOracle 20 1 = ([], 1) :=
  (getLinksFromPage_total_spec (ε := Unit)).2.1 failingPageOracle 20 1 ()
    (by decide) rfl

theorem enrichListings_eq_map_filter {δ : Type} (detail : ListingSummary → Option δ)
    (ls : List ListingSummary) :
    enrichListings detail ls =
      (ls.filter (fun l => (detail l).isSome)).map
        (fun l => { summary := l, detailedInfo := detail l }) := by
  induction ls with
  | nil => rfl
  | cons a t ih =>
    simp only [enrichListings, List.map_cons, List.filter_cons] at *
    by_cases h : (detail a).isSome
    · simp [h, ih]
    · simp [h, ih]

theorem filter_isSome_stable {δ : Type} (detail : ListingSummary → Option δ)
    (bad : ListingSummary) (hbad : detail bad = none) :
    ∀ ls : List ListingSummary,
      ls.filter (fun l => (detail l).isSome) =
        (ls.filter (fun l => l ≠ bad)).filter (fun l => (detail l).isSome) := by
  intro ls
  induction ls with
  | nil => rfl
  | cons a t ih =>
    by_cases hab : a = bad
    · subst hab
      simp [List.filter_cons, hbad, ih]
    · simp [List.filter_cons, hab, ih]

/-- C1: the dataset returned by the enrichment phase of
`scrapeAllListingsWithDetails` contains exactly the enriched records with
non-null `detailedInfo` (first and second conjuncts: every surviving record is
non-null, and their count is the count of summaries whose detail fetch
succeeds); and a detail-fetch failure is isolated to its own listing: the
output equals the run over the fetch-successes alone, and removing a
permanently-failing listing from the input changes nothing (third and fourth
conjuncts) — so with 10 summaries of which 1 fails, exactly the other 9
records appear, with identical content. -/
theorem enrichment_isolation {δ : Type} (detail : ListingSummary → Option δ)
    (ls : List ListingSummary) :
    (∀ e ∈ enrichListings detail ls, e.detailedInfo ≠ none) ∧
    (enrichListings detail ls).length =
      (ls.filter (fun l => (detail l).isSome)).length ∧
    enrichListings detail ls =
      enrichListings detail (ls.filter (fun l => (detail l).isSome)) ∧
    (∀ bad : ListingSummary, detail bad = none →
      enrichListings detail ls =
        enrichListings detail (ls.filter (fun l => l ≠ bad))) := by
  refine ⟨?_, ?_, ?_, ?_⟩
  · intro e he
    rw [enrichListings_eq_map_filter] at he
    obtain ⟨l, hl, rfl⟩ := List.mem_map.mp he
    have hs := (List.mem_filter.mp hl).2
    intro hnone
    simp only [] at hnone
    rw [hnone] at hs
    simp at hs
  · rw [enrichListings_eq_map_filter, List.length_map]
  · rw [enrichListings_eq_map_filter, enrichListings_eq_map_filter]
    congr 1
    simp [List.filter_filter]
  · intro bad hbad
    rw [enrichListings_eq_map_filter, enrichListings_eq_map_filter]
    congr 1
    exact filter_isSome_stable detail bad hbad ls

def witnessListings : List ListingSummary :=
  ["1", "2", "3", "4", "5", "6", "7", "8", "9", "10"].map
    (fun i => { listingId := some i })

def witnessBad : ListingSummary := { listingId := some "7" }

def witnessDetail : ListingSummary → Option Unit :=
  fun l => if l.listingId = some "7" then none else some ()

/-- Witness for C1: ten summaries, the detail fetch of listing "7" permanently
fails; the output equals the run without that listing and has exactly 9
records. -/
theorem enrichment_isolation_witness :
    enrichListings witnessDetail witnessListings =
      enrichListings witnessDetail (witnessListings.filter (fun l => l ≠ witnessBad)) ∧
    (enrichListings witnessDetail witnessListings).length = 9 := by
  refine ⟨(enrichment_isolation witnessDetail witnessListings).2.2.2 witnessBad rfl, ?_⟩
  have h := (enrichment_isolation witnessDetail witnessListings).2.1
  rw [h]
  decide

/-- C4 (code bug): on the spec input the code returns an empty postal code and
the whole address line as neighborhood, because `split(" ")` can never produce
the two-word token `"V5H 1A1"`; the regex of `parseAddress` explicitly allows
an interior space (third conjunct), so the spaced Canadian format is the
intent, but no space-split token ever contains one (fourth conjunct). -/
theorem parseAddress_postal_bug_eval :
    parseAddress "123 Main St Burnaby V5H 1A1 Metrotown" =
      { streetNumber := some "123", streetName := some "Main",
        streetType := some "St", city := "Burnaby", postalCode := "",
        neighborhood := "123 Main St Burnaby V5H 1A1 Metrotown" } ∧
    parseAddress "123 Main St Burnaby V5H 1A1 Metrotown" ≠
      { streetNumber := some "123", streetName := some "Main",
        streetType := some "St", city := "Burnaby", postalCode := "V5H 1A1",
        neighborhood := "Metrotown" } ∧
    postalTokenTest "V5H 1A1" = true ∧
    ((jsSplit "123 Main St Burnaby V5H 1A1 Metrotown" ' ').all
      (fun t => !postalTokenTest t)) = true := by
  refine ⟨by decide, by decide, by decide, by decide⟩

/-- C8 counterexample: for the input "10 Boring Ave Nowhere" no token matches
the postal pattern (first conjunct), yet the neighborhood is the join of all
tokens from index 0 — the whole line — not the remainder from index 1 that the
claim states, because `Array.prototype.indexOf` returns `-1` (not `0`) when
`""` is not an element. -/
theorem parseAddress_neighborhood_cex :
    ((jsSplit "10 Boring Ave Nowhere" ' ').all (fun t => !postalTokenTest t)) = true ∧
    (parseAddress "10 Boring Ave Nowhere").postalCode = "" ∧
    (parseAddress "10 Boring Ave Nowhere").neighborhood = "10 Boring Ave Nowhere" ∧
    (parseAddress "10 Boring Ave Nowhere").neighborhood ≠
      jsJoinSpace ((jsSplit "10 Boring Ave Nowhere" ' ').drop 1) := by
  refine ⟨by decide, by decide, by decide, by decide⟩

theorem jsArrIndexOfAux_not_mem (x : String) :
    ∀ (l : List String) (i : Nat), x ∉ l → jsArrIndexOfAux x i l = -1 := by
  intro l
  induction l with
  | nil => intro i _; rfl
  | cons a t ih =>
    intro i hmem
    have ha : ¬ a = x := fun h => hmem (h ▸ List.mem_cons_self a t)
    have ht : x ∉ t := fun h => hmem (List.mem_cons_of_mem a h)
    simp only [jsArrIndexOfAux, ha, if_false]
    exact ih (i + 1) ht

/-- C8 (amended): for every address string none of whose space-split tokens
matches the postal pattern (and the empty string is not itself a token),
`parseAddress` returns an empty postal code and a neighborhood equal to ALL
tokens of the split joined by spaces — the remainder from index 0, not from
index 1 — since `indexOf` of the missing `""` is `-1` and `slice(-1 + 1)`
starts at 0. -/
theorem parseAddress_no_postal_amended (s : String)
    (hall : ∀ t ∈ jsSplit s ' ', postalTokenTest t = false)
    (hne : "" ∉ jsSplit s ' ') :
    (parseAddress s).postalCode = "" ∧
    (parseAddress s).neighborhood = jsJoinSpace (jsSplit s ' ') := by
  have hfind : (jsSplit s ' ').find? (fun part => postalTokenTest part) = none :=
    List.find?_eq_none.mpr (fun x hx => by simp [hall x hx])
  have hidx : jsArrIndexOf (jsSplit s ' ') "" = -1 :=
    jsArrIndexOfAux_not_mem "" (jsSplit s ' ') 0 hne
  constructor
  · simp [parseAddress, hfind]
  · simp [parseAddress, hfind, hidx]

/-- Witness for C8 (amended) at the concrete address "77 Sunset Blvd Surrey". -/
theorem parseAddress_no_postal_amended_witness :
    (parseAddress "77 Sunset Blvd Surrey").postalCode = "" ∧
    (parseAddress "77 Sunset Blvd Surrey").neighborhood =
      jsJoinSpace (jsSplit "77 Sunset Blvd Surrey" ' ') :=
  parseAddress_no_postal_amended "77 Sunset Blvd Surrey"
    (by decide) (by decide)

/-- Blob used to refute C7: the general-info marker (index 4) precedes the
documents marker (index 22). -/
def descBlobBothMarkers : String := "abc General Info: xyz Documents & Links: end"

/-- C7 counterexample: in `descBlobBothMarkers` the general-info marker occurs
first, yet `extractDescription` cuts at the later documents marker, so the
output is not the text up to whichever marker occurs first ("abc"). -/
theorem extractDescription_first_marker_cex :
    jsStrIndexOf descBlobBothMarkers "General Info:" = 4 ∧
    jsStrIndexOf descBlobBothMarkers "Documents & Links:" = 22 ∧
    extractDescription descBlobBothMarkers = "abc General Info: xyz" ∧
    extractDescription descBlobBothMarkers ≠
      jsTrim (jsSubstring0 descBlobBothMarkers 4) := by
  refine ⟨by decide, by decide, by decide, by decide⟩

/-- C7 (amended): `extractDescription` cuts at the documents/links marker
whenever that marker occurs at a positive index — even when the general-info
marker occurs earlier — and falls back to the general-info marker index only
when the documents marker is absent (index `-1`) or at index 0. -/
theorem extractDescription_amended (t : String) :
    (0 < jsStrIndexOf t "Documents & Links:" →
      extractDescription t =
        jsTrim (jsSubstring0 t (jsStrIndexOf t "Documents & Links:"))) ∧
    (jsStrIndexOf t "Documents & Links:" ≤ 0 →
      extractDescription t =
        jsTrim (jsSubstring0 t (jsStrIndexOf t "General Info:"))) := by
  constructor
  · intro h
    simp [extractDescription, h]
  · intro h
    have h2 : ¬ 0 < jsStrIndexOf t "Documents & Links:" := by omega
    simp [extractDescription, h2]

/-- Witness for C7 (amended): applies the theorem to a blob where both markers
occur, general-info first. -/
theorem extractDescription_amended_witness :
    extractDescription descBlobBothMarkers =
      jsTrim (jsSubstring0 descBlobBothMarkers
        (jsStrIndexOf descBlobBothMarkers "Documents & Links:")) :=
  (extractDescription_amended descBlobBothMarkers).1 (by decide)

/-- C9 counterexample: for an absent price field (empty price text) the
`parsePrice` helper of utils.js — used by the parsers.js summary extractor —
returns the number 0, not NaN: the `Or`-with-zero coercion `|| 0` converts the
NaN produced by `parseFloat("")` into `0`. -/
theorem parsePrice_absent_cex :
    parsePrice "" = some 0 ∧
    extractPriceParsers "" = { amount := some 0, formatted := "" } ∧
    (some (0 : ℚ)) ≠ (none : Option ℚ) := by
  refine ⟨by decide, by decide, by simp⟩

/-- C9 (amended): stripping "$" and "," and converting gives 1234500 for
"$1,234,500" with the formatted string preserved verbatim, in both
implementations; for an absent (empty) price text the bot.js extractor yields
NaN (`none`) with the formatted string preserved, while the utils.js
`parsePrice` path yields 0 because of its `|| 0` fallback. -/
theorem price_parsing_amended :
    extractPriceBot "$1,234,500" = { amount := some 1234500, formatted := "$1,234,500" } ∧
    extractPriceParsers "$1,234,500" = { amount := some 1234500, formatted := "$1,234,500" } ∧
    extractPriceBot "" = { amount := none, formatted := "" } ∧
    parsePrice "" = some 0 ∧
    extractPriceParsers "" = { amount := some 0, formatted := "" } := by
  have h1 : jsParseFloatParts (stripDollarComma "$1,234,500") =
      some (false, ['1', '2', '3', '4', '5', '0', '0'], []) := by decide
  have hd : digitsVal ['1', '2', '3', '4', '5', '0', '0'] = 1234500 := by decide
  have h2 : ratOfParts (false, ['1', '2', '3', '4', '5', '0', '0'], []) = 1234500 := by
    unfold ratOfParts
    simp [hd, digitsVal]
  have hf : jsTrim "$1,234,500" = "$1,234,500" := by decide
  refine ⟨?_, ?_, by decide, by decide, by decide⟩
  · unfold extractPriceBot jsParseFloat
    rw [hf, h1]
    simp [h2]
  · unfold extractPriceParsers parsePrice jsParseFloat
    rw [hf, h1]
    simp [h2, jsOrZero]

theorem axiosRetryAux_spec {ε α : Type} (net : Nat → Except ε α) (delayMs : Nat) :
    ∀ (remaining i : Nat), 1 ≤ remaining →
      (1 ≤ (axiosRetryAux net delayMs remaining i).2.1 ∧
       (axiosRetryAux net delayMs remaining i).2.1 ≤ remaining) ∧
      (axiosRetryAux net delayMs remaining i).2.2 =
        List.replicate ((axiosRetryAux net delayMs remaining i).2.1 - 1) delayMs ∧
      ((∀ j, i ≤ j → j < i + remaining → ∃ err, net j = Except.error err) →
        (axiosRetryAux net delayMs remaining i).1 =
          (net (i + remaining - 1)).map some ∧
        (axiosRetryAux net delayMs remaining i).2.1 = remaining) := by
  intro remaining
  induction remaining with
  | zero => intro i h; omega
  | succ rem ih =>
    intro i _
    cases hnet : net i with
    | ok v =>
      refine ⟨⟨?_, ?_⟩, ?_, ?_⟩ <;> simp [axiosRetryAux, hnet]
      intro hfail
      obtain ⟨err, herr⟩ := hfail i (by omega) (by omega)
      rw [hnet] at herr
      cases herr
    | error err =>
      by_cases hz : rem = 0
      · subst hz
        refine ⟨⟨?_, ?_⟩, ?_, ?_⟩ <;> simp [axiosRetryAux, hnet]
        intro hfail
        rfl
      · have hrec := ih (i + 1) (by omega)
        obtain ⟨⟨q1, q2⟩, q3, q4⟩ := hrec
        refine ⟨⟨?_, ?_⟩, ?_, ?_⟩
        · simp [axiosRetryAux, hnet, hz]
        · simp only [axiosRetryAux, hnet, hz, if_false]
          show (axiosRetryAux net delayMs rem (i + 1)).2.1 + 1 ≤ rem + 1
          exact Nat.add_le_add_right q2 1
        · simp only [axiosRetryAux, hnet, hz, if_false]
          rw [q3]
          obtain ⟨m, hm⟩ : ∃ m, (axiosRetryAux net delayMs rem (i + 1)).2.1 = m + 1 :=
            ⟨(axiosRetryAux net delayMs rem (i + 1)).2.1 - 1, by omega⟩
          rw [hm]
          simp [List.replicate_succ]
        · intro hfail
          obtain ⟨r1, r2⟩ := q4 (fun j hj1 hj2 => hfail j (by omega) (by omega))
          constructor
          · simp only [axiosRetryAux, hnet, hz, if_false]
            rw [r1]
            have harg : i + 1 + rem - 1 = i + (rem + 1) - 1 := by omega
            rw [harg]
          · simp only [axiosRetryAux, hnet, hz, if_false]
            rw [r2]

/-- C5: for every request oracle and every attempt budget `retries ≥ 1`,
`axiosWithRetry` performs at most `retries` attempts (first conjunct); the
waits it inserts are exactly one fixed `delayMs` after each failed attempt
except the last one performed (second conjunct: the delay list is
`attempts - 1` copies of `delayMs`, for the success and the exhaustion paths
alike); and when every attempt in the budget fails, all `retries` attempts are
performed and the error of the final attempt is propagated to the caller
unchanged (third conjunct; `Except.map some` only adjusts the result type that
also models the `retries = 0` undefined return). -/
theorem axiosWithRetry_spec {ε α : Type} (net : Nat → Except ε α)
    (retries delayMs : Nat) (hr : 1 ≤ retries) :
    (axiosWithRetry net retries delayMs).2.1 ≤ retries ∧
    (axiosWithRetry net retries delayMs).2.2 =
      List.replicate ((axiosWithRetry net retries delayMs).2.1 - 1) delayMs ∧
    ((∀ j, j < retries → ∃ err, net j = Except.error err) →
      (axiosWithRetry net retries delayMs).1 = (net (retries - 1)).map some ∧
      (axiosWithRetry net retries delayMs).2.1 = retries) := by
  obtain ⟨⟨p1, p2⟩, p3, p4⟩ := axiosRetryAux_spec net delayMs retries 0 hr
  refine ⟨p2, p3, ?_⟩
  intro hfail
  obtain ⟨r1, r2⟩ := p4 (fun j _ hj => hfail j (by omega))
  refine ⟨?_, r2⟩
  have harg : 0 + retries - 1 = retries - 1 := by omega
  rw [harg] at r1
  exact r1

def c5FailNet : Nat → Except Nat Nat := fun j => Except.error (j + 100)

/-- Witness for C5: an oracle that fails every attempt makes the default
3-attempt budget perform exactly 3 attempts and surface the error of the final
attempt. -/
theorem axiosWithRetry_spec_witness :
    (axiosWithRetry c5FailNet 3 7).1 = (c5FailNet 2).map some ∧
    (axiosWithRetry c5FailNet 3 7).2.1 = 3 :=
  (axiosWithRetry_spec c5FailNet 3 7 (by decide)).2.2 (fun j _ => ⟨j + 100, rfl⟩)

def c6PageNet : Nat → Except String (List ListingSummary) :=
  fun i => if i = 0 then Except.error "ETIMEDOUT" else Except.ok [listingActive]

/-- C6 counterexample: a listing-index GET whose first attempt fails
transiently but would succeed from the second attempt on.  `getLinksFromPage`
performs exactly one attempt and surfaces the failure as the empty-listings
result (first conjunct), while the Fetcher under its 3-attempt budget would
have absorbed the transient failure and succeeded after 2 attempts (second and
third conjuncts) — so not every pipeline GET is performed through the Fetcher. -/
theorem pageFetch_not_through_fetcher_cex :
    getLinksFromPageNet c6PageNet = ({ listings := [], foundInactive := false }, 1) ∧
    (axiosWithRetry c6PageNet 3 1000).1 = Except.ok (some [listingActive]) ∧
    (axiosWithRetry c6PageNet 3 1000).2.1 = 2 := by
  refine ⟨rfl, rfl, rfl⟩

/-- C6 (amended): only the detail-page fetch of `scrapeListingDetails` goes
through the Fetcher — a transient first-attempt failure is retried in place
and succeeds within the budget (second conjunct) — whereas the listing-index
page fetch of `getLinksFromPage` is a bare single-attempt GET for every
oracle (first conjunct), so its transient failures are never retried. -/
theorem fetch_paths_amended {ε δ : Type} (parseDetailed : String → Option δ) :
    (∀ net : Nat → Except ε (List ListingSummary), (getLinksFromPageNet net).2 = 1) ∧
    (∀ (net : Nat → Except ε String) (err : ε) (blob : String),
      net 0 = Except.error err → net 1 = Except.ok blob →
      scrapeListingDetails parseDetailed net = (parseDetailed (cleanText blob), 2)) := by
  refine ⟨fun net => rfl, ?_⟩
  intro net err blob h0 h1
  unfold scrapeListingDetails axiosWithRetry
  simp [axiosRetryAux, h0, h1]

def c6DetailNet : Nat → Except Unit String :=
  fun i => if i = 0 then Except.error () else Except.ok "blob"

/-- Witness for C6 (amended): a detail fetch failing on attempt 0 and
succeeding on attempt 1 is retried in place and completes with 2 attempts. -/
theorem fetch_paths_amended_witness :
    scrapeListingDetails (fun _ => some ()) c6DetailNet = (some (), 2) :=
  (fetch_paths_amended (ε := Unit) (fun _ => some ())).2 c6DetailNet () "blob" rfl rfl

end PhilsBot
